import Mathlib

/-!
# A shallow embedding of the `Variant<Ts...>` tagged union (src/variant.hpp)

The C++ class couples an `int64_t` discriminant `type_idx` (sentinel
`null_type = -1`) with a recursive-union storage cell, and drives every
lifetime event (construct / destroy / copy / move / compare) through
function-pointer tables indexed by the discriminant.

The embedding keeps the two fields separate, exactly as the code does:

* `type_idx : Int` is the discriminant.
* `cell : Option (Nat × α)` is the storage cell: `some (i, x)` means an object
  of alternative `i` holding the abstract value `x` is currently constructed
  in the union; `none` means no object is constructed (fresh or destroyed
  storage).  All alternatives share one abstract value type `α`; the
  per-alternative behaviour (the dispatch tables) is a parameter
  `beq : Nat → α → α → Bool` where needed.

Each mutating member function is translated twice, in lock-step with the
source: a list of primitive `Step`s (one per statement of the C++ body, in
source order), and the big-step result obtained by folding the steps.  The
step lists make the temporal ordering (destructor call vs. discriminant
write) provable, not just the final state.

Value moves are modelled as copies: the abstract values are plain data, and
a C++ moved-from object still exists in the source cell until it is
destroyed, which the model keeps visible (`cell` is unchanged on the source
side of a move; only `type_idx` is reset by the caller, as in the code).

Reading the storage at an index other than the live one is undefined
behaviour in C++; the model returns `none` there, and the corresponding
unreachable branches of the translated bodies are marked below.
-/

namespace VariantSpec

/-- `Variant::null_type = -1`, the empty-state sentinel of the discriminant. -/
def null_type : Int := -1

/-- The runtime state of a `Variant<Ts...>` object: the discriminant
`type_idx` and the storage cell.  `cell = some (i, x)` means an object of
alternative `i` with value `x` is constructed in the union; `none` means the
storage holds no constructed object. -/
structure Variant (α : Type) where
  type_idx : Int
  cell : Option (Nat × α)
  deriving DecidableEq, Repr

/-- `variant_utils::find_idx_by_type` = `Position<0, FindT, Ts...>::pos`:
index of the first occurrence of `t` in the alternative list, or
`null_type = -1` when `t` does not occur. -/
def find_idx_by_type {τ : Type} [DecidableEq τ] (t : τ) : List τ → Int
  | [] => null_type
  | u :: us =>
    if u = t then 0
    else if find_idx_by_type t us = null_type then null_type
    else find_idx_by_type t us + 1

/-- `Variant::get<idx>()` — the storage reinterpreted at alternative `idx`.
Defined (`some`) exactly when an object of alternative `idx` is constructed
there; reading any other interpretation is C++ UB, modelled as `none`. -/
def Variant.get {α : Type} (v : Variant α) (i : Nat) : Option α :=
  match v.cell with
  | some (j, x) => if j = i then some x else none
  | none => none

/-- `2^64`, the modulus of `size_t`/`uint64_t` arithmetic on the reference
64-bit target (written as a numeral so kernel evaluation is direct). -/
def uint64_mod : Nat := 18446744073709551616

/-- `Variant::holds_alternative<id>()` (index form): the source compares
`id == type_idx` with `id : size_t` and `type_idx : int64_t`; by the usual
arithmetic conversions the signed `type_idx` is converted to `uint64_t`, so
the executed comparison is `id == type_idx mod 2^64`.  `id` stands for the
`size_t` template argument (reduced mod `2^64` for totality; an actual
`size_t` value is already below `2^64`). -/
def Variant.holds_alternative_idx {α : Type} (v : Variant α) (id : Nat) : Bool :=
  decide (((id % uint64_mod : Nat) : Int) = v.type_idx % (uint64_mod : Int))

/-- `Variant::holds_alternative<T>()` (type form): resolve
`find_idx_by_type<T, Ts...>`; if it is `-1` return `false` (the
`if constexpr` branch), otherwise compare with the discriminant. -/
def holds_alternative_ty {τ α : Type} [DecidableEq τ]
    (ts : List τ) (v : Variant α) (t : τ) : Bool :=
  if find_idx_by_type t ts = null_type then false
  else decide (v.type_idx = find_idx_by_type t ts)

/-- `Variant::index()`: the current discriminant, sentinel included. -/
def Variant.index {α : Type} (v : Variant α) : Int := v.type_idx

/-! ## Micro-steps

One constructor of `Step` per primitive effect the C++ member-function
bodies perform on a single `Variant` object, in source order:

* `destroyObj` — `destroy_func[type_idx](&m_storage)`: run the live
  object's destructor (the cell becomes empty; the discriminant is NOT
  touched by `destroy()`);
* `setIdx k` — an assignment `type_idx = k`;
* `constructObj i x` — placement-new of alternative `i` with value `x`
  into the storage cell.
-/

/-- A primitive effect of a `Variant` member function on one object. -/
inductive Step (α : Type) where
  | destroyObj : Step α
  | setIdx : Int → Step α
  | constructObj : Nat → α → Step α
  deriving DecidableEq, Repr

/-- Apply one primitive step to a `Variant` state. -/
def applyStep {α : Type} (v : Variant α) : Step α → Variant α
  | .destroyObj => { v with cell := none }
  | .setIdx k => { v with type_idx := k }
  | .constructObj i x => { v with cell := some (i, x) }

/-- Run a list of steps, in order, from a starting state. -/
def execSteps {α : Type} (v : Variant α) (ss : List (Step α)) : Variant α :=
  ss.foldl applyStep v

/-- All intermediate states (start state included) of running `ss` from `v`. -/
def stateTrace {α : Type} (v : Variant α) (ss : List (Step α)) : List (Variant α) :=
  List.scanl applyStep v ss

/-- The discriminant-soundness invariant of spec §3: whenever the
discriminant names an alternative `i`, a fully-constructed object of
alternative `i` is actually live in the cell. -/
def discOK {α : Type} (v : Variant α) : Bool :=
  decide (v.type_idx = null_type) ||
    (match v.cell with
     | some (j, _) => decide (v.type_idx = (j : Int))
     | none => false)

/-! ## Step lists of the member-function bodies -/

/-- `Variant::destroy()`: `if (type_idx != null_type)
destroy_func[type_idx](&m_storage);` — note it does not reset `type_idx`. -/
def destroySteps {α : Type} (v : Variant α) : List (Step α) :=
  if v.type_idx = null_type then [] else [Step.destroyObj]

/-- `~Variant()` in the non-trivially-destructible case: just `destroy()`.
(When every alternative is trivially destructible the body is empty, an
optimization with no observable difference.) -/
def dtorSteps {α : Type} (v : Variant α) : List (Step α) :=
  destroySteps v

/-- `Variant::construct_from(const Variant&)`: set `type_idx = null_type`;
if the source is empty return; otherwise `table[other.type_idx]`
copy-constructs from the source storage read at `other.type_idx`, then
`type_idx = other.type_idx`.  The inner `none` branch (copying from storage
that holds no object at that index) is C++ UB and unreachable for
well-formed sources. -/
def constructFromCopySteps {α : Type} (other : Variant α) : List (Step α) :=
  Step.setIdx null_type ::
    (if other.type_idx = null_type then []
     else
       match other.get other.type_idx.toNat with
       | some x => [Step.constructObj other.type_idx.toNat x, Step.setIdx other.type_idx]
       | none => [Step.setIdx other.type_idx])

/-- `Variant::construct_from(Variant&&)`: textually the same shape as the
copy version, with `MoveConstructInto` in place of `CopyConstructInto`; on
abstract values a move reads the same value, and `construct_from` itself
does not touch the source's discriminant (its caller does, afterwards). -/
def constructFromMoveSteps {α : Type} (other : Variant α) : List (Step α) :=
  Step.setIdx null_type ::
    (if other.type_idx = null_type then []
     else
       match other.get other.type_idx.toNat with
       | some x => [Step.constructObj other.type_idx.toNat x, Step.setIdx other.type_idx]
       | none => [Step.setIdx other.type_idx])

/-- `Variant::operator=(T&&)` with `idx = find_idx_by_type<U, Ts...>`:
`destroy(); type_idx = null_type; construct_variant_value(...); type_idx = idx;`. -/
def assignValueSteps {α : Type} (v : Variant α) (idx : Nat) (x : α) : List (Step α) :=
  destroySteps v ++
    [Step.setIdx null_type, Step.constructObj idx x, Step.setIdx (idx : Int)]

/-- Steps of `Variant::operator=(const Variant&)` as they act on `*this`:
the identity guard (`same` models `this == &other`) returns immediately;
otherwise `destroy()` then `construct_from(other)`.  The `construct_from`
steps depend only on `other`, which (for `same = false`) is a distinct
object not modified by destroying `*this*`. -/
def copyAssignSteps {α : Type} (self other : Variant α) (same : Bool) : List (Step α) :=
  if same then [] else destroySteps self ++ constructFromCopySteps other

/-- Steps of `Variant::operator=(Variant&&)` as they act on `*this`
(the final `other.type_idx = null_type` acts on the source and is applied
by `move_assign` below). -/
def moveAssignSteps {α : Type} (self other : Variant α) (same : Bool) : List (Step α) :=
  if same then [] else destroySteps self ++ constructFromMoveSteps other

/-! ## The public operations (big-step results) -/

/-- `Variant()` — default-constructed: `type_idx{null_type}`, nothing in the cell. -/
def emptyVariant {α : Type} : Variant α := { type_idx := null_type, cell := none }

/-- `Variant(T&& val)` at resolved index `idx`: from a fresh object,
`construct_variant_value(m_storage, val); type_idx = idx;`. -/
def value_ctor {α : Type} (idx : Nat) (x : α) : Variant α :=
  execSteps emptyVariant [Step.constructObj idx x, Step.setIdx (idx : Int)]

/-- `Variant(T&& val)` resolving the alternative type `t` against the list
`ts`, as the constructor's SFINAE does (`find_idx_by_type<U, Ts...>`);
meaningful when the lookup does not yield `-1`. -/
def value_ctor_ty {τ α : Type} [DecidableEq τ] (ts : List τ) (t : τ) (x : α) : Variant α :=
  value_ctor (find_idx_by_type t ts).toNat x

/-- `Variant(const Variant& other)`: `construct_from(other)` on a fresh
object.  Returns (target, source); the source is taken by const reference
and is not modified. -/
def copy_ctor {α : Type} (other : Variant α) : Variant α × Variant α :=
  (execSteps emptyVariant (constructFromCopySteps other), other)

/-- `Variant(Variant&& other)`: `construct_from(std::move(other))` on a
fresh object, then `other.type_idx = null_type`.  Returns (target, source
after the move). -/
def move_ctor {α : Type} (other : Variant α) : Variant α × Variant α :=
  (execSteps emptyVariant (constructFromMoveSteps other),
   { other with type_idx := null_type })

/-- `Variant::operator=(T&&)` at resolved index `idx` (big-step). -/
def assign_value {α : Type} (v : Variant α) (idx : Nat) (x : α) : Variant α :=
  execSteps v (assignValueSteps v idx x)

/-- `Variant::operator=(const Variant&)` (big-step on `*this`); `same`
models the `this == &other` identity test. -/
def copy_assign {α : Type} (self other : Variant α) (same : Bool) : Variant α :=
  execSteps self (copyAssignSteps self other same)

/-- `Variant::operator=(Variant&&)` (big-step): the new `*this` and the
source after `other.type_idx = null_type` (skipped by the identity guard). -/
def move_assign {α : Type} (self other : Variant α) (same : Bool) :
    Variant α × Variant α :=
  if same then (self, other)
  else (execSteps self (moveAssignSteps self other same),
        { other with type_idx := null_type })

/-- `~Variant()` (big-step): the state of the storage after the destructor
body ran (the discriminant is never reset by the destructor). -/
def run_dtor {α : Type} (v : Variant α) : Variant α :=
  execSteps v (dtorSteps v)

/-! ## Equality -/

/-- `Variant::operator==(const Variant&)` with all alternatives
equality-comparable (the `static_assert` of the source), `beq i` being
alternative `i`'s `operator==`: unequal discriminants compare unequal; two
empties compare equal; otherwise `compare_func_table[type_idx]` compares
the two storages read at `type_idx`.  Reading dead storage is C++ UB,
modelled as `false` (unreachable for well-formed operands). -/
def veq {α : Type} (beq : Nat → α → α → Bool) (a b : Variant α) : Bool :=
  if a.type_idx ≠ b.type_idx then false
  else if a.type_idx = null_type then true
  else
    match a.get a.type_idx.toNat, b.get a.type_idx.toNat with
    | some x, some y => beq a.type_idx.toNat x y
    | _, _ => false

/-- `Variant::operator==(const T&)` against a bare value `x` of alternative
type `t`: `if (!holds_alternative<U>()) return false; return get<U>() == x;`. -/
def veq_value {τ α : Type} [DecidableEq τ] (ts : List τ) (beq : Nat → α → α → Bool)
    (v : Variant α) (t : τ) (x : α) : Bool :=
  if holds_alternative_ty ts v t = false then false
  else
    match v.get (find_idx_by_type t ts).toNat with
    | some y => beq (find_idx_by_type t ts).toNat y x
    | none => false

/-- Well-formedness of a `Variant` state, as maintained by the class: either
the discriminant is the sentinel (the cell may still hold a stale moved-from
object that the class will never touch again), or the discriminant names
alternative `i` and an object of alternative `i` is live in the cell. -/
def WF {α : Type} (v : Variant α) : Prop :=
  v.type_idx = null_type ∨
    ∃ i : Nat, ∃ x : α, v.type_idx = (i : Int) ∧ v.cell = some (i, x)

/-! ## Helper lemmas -/

theorem find_idx_nonneg {τ : Type} [DecidableEq τ] (t : τ) (ts : List τ)
    (h : find_idx_by_type t ts ≠ null_type) : 0 ≤ find_idx_by_type t ts := by
  induction ts with
  | nil => exact absurd rfl h
  | cons u us ih =>
    simp only [find_idx_by_type] at h ⊢
    by_cases hu : u = t
    · simp [hu]
    · simp only [hu, if_false] at h ⊢
      by_cases hr : find_idx_by_type t us = null_type
      · simp [hr] at h
      · simp only [hr, if_false]
        have := ih hr
        omega

theorem find_idx_eq_null_iff {τ : Type} [DecidableEq τ] (t : τ) (ts : List τ) :
    find_idx_by_type t ts = null_type ↔ t ∉ ts := by
  induction ts with
  | nil => simp [find_idx_by_type]
  | cons u us ih =>
    simp only [find_idx_by_type, List.mem_cons]
    by_cases hu : u = t
    · simp [hu, null_type]
    · simp only [hu, if_false]
      by_cases hr : find_idx_by_type t us = null_type
      · simp only [hr, if_true, true_iff]
        intro hc
        rcases hc with hc | hc
        · exact hu hc.symm
        · exact (ih.mp hr) hc
      · simp only [hr, if_false]
        have hge := find_idx_nonneg t us hr
        have hmem : t ∈ us := by
          by_contra hnm
          exact hr (ih.mpr hnm)
        constructor
        · intro h0
          simp only [null_type] at h0
          omega
        · intro h
          exact absurd (Or.inr hmem) h

theorem find_idx_mem {τ : Type} [DecidableEq τ] (t : τ) (ts : List τ)
    (h : find_idx_by_type t ts ≠ null_type) : t ∈ ts := by
  by_contra hmem
  exact h ((find_idx_eq_null_iff t ts).mpr hmem)

theorem natCast_ne_null (i : Nat) : ((i : Int)) ≠ null_type := by
  simp only [null_type]; omega

theorem null_ne_natCast (i : Nat) : null_type ≠ ((i : Int)) := by
  simp only [null_type]; omega

/-- Recognizer for the destructor step, used to count destructor calls. -/
def isDestroy {α : Type} : Step α → Bool
  | Step.destroyObj => true
  | Step.setIdx _ => false
  | Step.constructObj _ _ => false

/-- `Step.destroyObj` never occurs in a `construct_from` body (copy case). -/
theorem destroyObj_not_in_copy_from {α : Type} (o : Variant α) :
    Step.destroyObj ∉ constructFromCopySteps o := by
  simp only [constructFromCopySteps]
  intro hmem
  rcases List.mem_cons.mp hmem with h | h
  · exact Step.noConfusion h
  · split at h
    · exact absurd h (List.not_mem_nil _)
    · split at h <;> simp_all

/-- `Step.destroyObj` never occurs in a `construct_from` body (move case). -/
theorem destroyObj_not_in_move_from {α : Type} (o : Variant α) :
    Step.destroyObj ∉ constructFromMoveSteps o := by
  simp only [constructFromMoveSteps]
  intro hmem
  rcases List.mem_cons.mp hmem with h | h
  · exact Step.noConfusion h
  · split at h
    · exact absurd h (List.not_mem_nil _)
    · split at h <;> simp_all

/-! ## Claim theorems -/

/-- C2: for every alternative type `t` in the list `ts` and every value `x`,
constructing a `Variant` from `x` (the `Variant(T&&)` converting
constructor) yields `index() = find_idx_by_type t ts` and reading the
storage at that index yields `x` back. -/
theorem value_ctor_correct {τ α : Type} [DecidableEq τ] (ts : List τ) (t : τ) (x : α)
    (h : find_idx_by_type t ts ≠ null_type) :
    (value_ctor_ty (α := α) ts t x).index = find_idx_by_type t ts ∧
    (value_ctor_ty (α := α) ts t x).get (find_idx_by_type t ts).toNat = some x := by
  constructor
  · show ((find_idx_by_type t ts).toNat : Int) = find_idx_by_type t ts
    exact Int.toNat_of_nonneg (find_idx_nonneg t ts h)
  · simp [value_ctor_ty, value_ctor, execSteps, applyStep, emptyVariant, Variant.get]

/-- Witness for C2 at the concrete list `[10, 20]`, alternative `20`, value `9`. -/
theorem value_ctor_correct_witness :
    (value_ctor_ty ([10, 20] : List Nat) 20 (9 : Nat)).index = find_idx_by_type 20 [10, 20] ∧
    (value_ctor_ty ([10, 20] : List Nat) 20 (9 : Nat)).get
      (find_idx_by_type 20 [10, 20]).toNat = some 9 :=
  value_ctor_correct [10, 20] 20 9 (by decide)

/-- `uint64_mod` is `2^64`. -/
theorem uint64_mod_eq : uint64_mod = 2 ^ 64 := by
  norm_num [uint64_mod]

/-- C9 counterexample: the index form of `holds_alternative` does not return
true iff the discriminant equals the queried index.  On an empty `Variant`
(`type_idx = -1`), `holds_alternative<2^64-1>()` returns `true`: the signed
discriminant converts to `2^64 - 1` as `uint64_t`, equal to the `SIZE_MAX`
template argument, although the discriminant does not equal that index. -/
theorem holds_alternative_wrap_cex :
    Variant.holds_alternative_idx (⟨null_type, none⟩ : Variant Nat) (uint64_mod - 1) = true ∧
    (⟨null_type, (none : Option (Nat × Nat))⟩ : Variant Nat).type_idx ≠
      ((uint64_mod - 1 : Nat) : Int) := by
  constructor
  · decide
  · decide

/-- C9 (amended): `holds_alternative<id>()` compares the `size_t` id with
the discriminant converted to unsigned 64-bit, so it is true iff `id` equals
the discriminant modulo `2^64`; when the discriminant names an alternative
`i` (any in-range index) this is exactly "true iff the discriminant equals
`id`", but on an empty `Variant` it is instead true exactly for
`id = 2^64 - 1` (`SIZE_MAX`); `holds_alternative<T>()` is true iff `T`
occurs in the alternative list and the discriminant equals its resolved
index, a type not in the list gives `false` rather than failing, and
`index()` returns the discriminant itself, the empty sentinel included. -/
theorem holds_alternative_correct {τ α : Type} [DecidableEq τ] (ts : List τ)
    (v : Variant α) (id : Nat) (t : τ) :
    (v.holds_alternative_idx id = true ↔
      ((id % uint64_mod : Nat) : Int) = v.type_idx % (uint64_mod : Int)) ∧
    (∀ i : Nat, v.type_idx = (i : Int) → i < uint64_mod → id < uint64_mod →
      (v.holds_alternative_idx id = true ↔ id = i)) ∧
    (v.type_idx = null_type → id < uint64_mod →
      (v.holds_alternative_idx id = true ↔ id = uint64_mod - 1)) ∧
    (holds_alternative_ty ts v t = true ↔ t ∈ ts ∧ v.type_idx = find_idx_by_type t ts) ∧
    (t ∉ ts → holds_alternative_ty ts v t = false) ∧
    v.index = v.type_idx := by
  refine ⟨?_, ?_, ?_, ?_, ?_, rfl⟩
  · simp only [Variant.holds_alternative_idx, decide_eq_true_eq]
  · intro i hi hir hid
    simp only [Variant.holds_alternative_idx, decide_eq_true_eq, hi]
    rw [Nat.mod_eq_of_lt hid,
      Int.emod_eq_of_lt (Int.natCast_nonneg i) (by exact_mod_cast hir)]
    exact Nat.cast_inj
  · intro h hid
    simp only [Variant.holds_alternative_idx, decide_eq_true_eq, h]
    rw [Nat.mod_eq_of_lt hid]
    have hmod : null_type % ((uint64_mod : Nat) : Int) = ((uint64_mod - 1 : Nat) : Int) := by
      decide
    rw [hmod]
    exact Nat.cast_inj
  · by_cases h : find_idx_by_type t ts = null_type
    · simp [holds_alternative_ty, h, (find_idx_eq_null_iff t ts).mp h]
    · simp [holds_alternative_ty, h, find_idx_mem t ts h]
  · intro hmem
    simp [holds_alternative_ty, (find_idx_eq_null_iff t ts).mpr hmem]

/-- Witness for the amended C9 at list `[10, 20]`, state holding
alternative 1, query index 1 and the absent type `30`. -/
theorem holds_alternative_correct_witness :
    ((⟨1, some (1, 9)⟩ : Variant Nat).holds_alternative_idx 1 = true ↔
      ((1 % uint64_mod : Nat) : Int) =
        (⟨1, some (1, 9)⟩ : Variant Nat).type_idx % (uint64_mod : Int)) ∧
    (∀ i : Nat, (⟨1, some (1, 9)⟩ : Variant Nat).type_idx = (i : Int) →
      i < uint64_mod → 1 < uint64_mod →
      ((⟨1, some (1, 9)⟩ : Variant Nat).holds_alternative_idx 1 = true ↔ 1 = i)) ∧
    ((⟨1, some (1, 9)⟩ : Variant Nat).type_idx = null_type → 1 < uint64_mod →
      ((⟨1, some (1, 9)⟩ : Variant Nat).holds_alternative_idx 1 = true ↔
        1 = uint64_mod - 1)) ∧
    (holds_alternative_ty [10, 20] (⟨1, some (1, 9)⟩ : Variant Nat) 30 = true ↔
      30 ∈ [10, 20] ∧
        (⟨1, some (1, 9)⟩ : Variant Nat).type_idx = find_idx_by_type 30 [10, 20]) ∧
    (30 ∉ [10, 20] →
      holds_alternative_ty [10, 20] (⟨1, some (1, 9)⟩ : Variant Nat) 30 = false) ∧
    (⟨1, some (1, 9)⟩ : Variant Nat).index = (⟨1, some (1, 9)⟩ : Variant Nat).type_idx :=
  holds_alternative_correct [10, 20] ⟨1, some (1, 9)⟩ 1 30

/-- C3: move-constructing from a live source yields a target carrying the
source's former discriminant and value, and leaves the source with the
sentinel discriminant; move-constructing from an empty source yields an
empty target (and the source stays empty). -/
theorem move_ctor_correct {α : Type} (v : Variant α) :
    (∀ i : Nat, ∀ x : α, v.type_idx = (i : Int) → v.cell = some (i, x) →
      (move_ctor v).1.index = (i : Int) ∧
      (move_ctor v).1.get i = some x ∧
      (move_ctor v).2.index = null_type) ∧
    (v.type_idx = null_type →
      (move_ctor v).1 = emptyVariant ∧ (move_ctor v).2.index = null_type) := by
  constructor
  · intro i x h1 h2
    have hget : v.get v.type_idx.toNat = some x := by
      simp [Variant.get, h2, h1]
    refine ⟨?_, ?_, rfl⟩ <;>
      simp [move_ctor, constructFromMoveSteps, execSteps, applyStep, emptyVariant,
        Variant.index, Variant.get, h1, h2, natCast_ne_null, hget]
  · intro h
    constructor
    · simp [move_ctor, constructFromMoveSteps, h, execSteps, applyStep, emptyVariant]
    · simp [move_ctor, Variant.index]

/-- Witness for C3: moving from `⟨0, some (0, 5)⟩`. -/
theorem move_ctor_correct_witness :
    (move_ctor (⟨0, some (0, 5)⟩ : Variant Nat)).1.index = (0 : Int) ∧
    (move_ctor (⟨0, some (0, 5)⟩ : Variant Nat)).1.get 0 = some 5 ∧
    (move_ctor (⟨0, some (0, 5)⟩ : Variant Nat)).2.index = null_type :=
  (move_ctor_correct (⟨0, some (0, 5)⟩ : Variant Nat)).1 0 5 rfl rfl

/-- C5: copy-constructing from an empty source yields an empty target;
copy-constructing from a live source yields a target with the same
discriminant and an equal value in its own cell, and the source (taken by
const reference) is returned unchanged. -/
theorem copy_ctor_correct {α : Type} (v : Variant α) :
    (v.type_idx = null_type → (copy_ctor v).1 = emptyVariant) ∧
    (∀ i : Nat, ∀ x : α, v.type_idx = (i : Int) → v.cell = some (i, x) →
      (copy_ctor v).1.index = v.type_idx ∧
      (copy_ctor v).1.get i = some x ∧
      (copy_ctor v).1.cell = v.cell) ∧
    (copy_ctor v).2 = v := by
  refine ⟨?_, ?_, rfl⟩
  · intro h
    simp [copy_ctor, constructFromCopySteps, h, execSteps, applyStep, emptyVariant]
  · intro i x h1 h2
    have hget : v.get v.type_idx.toNat = some x := by
      simp [Variant.get, h2, h1]
    refine ⟨?_, ?_, ?_⟩ <;>
      simp [copy_ctor, constructFromCopySteps, execSteps, applyStep, emptyVariant,
        Variant.index, Variant.get, h1, h2, natCast_ne_null, hget]

/-- Witness for C5: copying from `⟨1, some (1, 3)⟩` (live) covers the live
clauses; the empty clause is discharged at `emptyVariant` itself. -/
theorem copy_ctor_correct_witness :
    (copy_ctor (⟨1, some (1, 3)⟩ : Variant Nat)).1.index =
      (⟨1, some (1, 3)⟩ : Variant Nat).type_idx ∧
    (copy_ctor (⟨1, some (1, 3)⟩ : Variant Nat)).1.get 1 = some 3 ∧
    (copy_ctor (⟨1, some (1, 3)⟩ : Variant Nat)).1.cell =
      (⟨1, some (1, 3)⟩ : Variant Nat).cell :=
  (copy_ctor_correct (⟨1, some (1, 3)⟩ : Variant Nat)).2.1 1 3 rfl rfl

/-- C4: assigning a value `x` of alternative `i` over a `Variant` currently
holding a live alternative `j` runs the body `destroy(); type_idx =
null_type; construct; type_idx = idx;` — the old value's destructor runs
exactly once, strictly before the new value is constructed (the step list is
exhibited in full), and afterwards the discriminant is `i` and the held
value is `x`; nothing restricts `i` to differ from `j`, so the statement
covers assigning over the same alternative as well. -/
theorem assign_value_correct {α : Type} (v : Variant α) (j : Nat) (y : α) (i : Nat) (x : α)
    (h1 : v.type_idx = (j : Int)) (h2 : v.cell = some (j, y)) :
    v.get j = some y ∧
    assignValueSteps v i x =
      [Step.destroyObj, Step.setIdx null_type, Step.constructObj i x,
        Step.setIdx (i : Int)] ∧
    (assignValueSteps v i x).countP (fun s => isDestroy s) = 1 ∧
    assign_value v i x = { type_idx := (i : Int), cell := some (i, x) } ∧
    (assign_value v i x).index = (i : Int) ∧
    (assign_value v i x).get i = some x := by
  have hds : destroySteps v = [Step.destroyObj] := by
    simp [destroySteps, h1, natCast_ne_null]
  have hlist : assignValueSteps v i x =
      [Step.destroyObj, Step.setIdx null_type, Step.constructObj i x,
        Step.setIdx (i : Int)] := by
    simp [assignValueSteps, hds]
  refine ⟨by simp [Variant.get, h2, h1], hlist, ?_, ?_, ?_, ?_⟩
  · rw [hlist]
    simp [List.countP_cons, isDestroy]
  · simp [assign_value, hlist, execSteps, applyStep]
  · simp [assign_value, hlist, execSteps, applyStep, Variant.index]
  · simp [assign_value, hlist, execSteps, applyStep, Variant.get]

/-- Witness for C4: assigning `(1, 7)` over `⟨0, some (0, 5)⟩`. -/
theorem assign_value_correct_witness :
    (⟨0, some (0, 5)⟩ : Variant Nat).get 0 = some 5 ∧
    assignValueSteps (⟨0, some (0, 5)⟩ : Variant Nat) 1 7 =
      [Step.destroyObj, Step.setIdx null_type, Step.constructObj 1 7,
        Step.setIdx (1 : Int)] ∧
    (assignValueSteps (⟨0, some (0, 5)⟩ : Variant Nat) 1 7).countP (fun s => isDestroy s) = 1 ∧
    assign_value (⟨0, some (0, 5)⟩ : Variant Nat) 1 7 =
      { type_idx := (1 : Int), cell := some (1, 7) } ∧
    (assign_value (⟨0, some (0, 5)⟩ : Variant Nat) 1 7).index = (1 : Int) ∧
    (assign_value (⟨0, some (0, 5)⟩ : Variant Nat) 1 7).get 1 = some 7 :=
  assign_value_correct ⟨0, some (0, 5)⟩ 0 5 1 7 rfl rfl

/-- C7: self copy-assignment and self move-assignment hit the
`this == &other` identity guard and are no-ops: the state (discriminant and
held value) is returned unchanged and no destructor step is ever emitted. -/
theorem self_assign_noop {α : Type} (v : Variant α) :
    copy_assign v v true = v ∧
    move_assign v v true = (v, v) ∧
    copyAssignSteps v v true = [] ∧
    moveAssignSteps v v true = [] ∧
    Step.destroyObj ∉ copyAssignSteps v v true ∧
    Step.destroyObj ∉ moveAssignSteps v v true := by
  refine ⟨rfl, rfl, rfl, rfl, ?_, ?_⟩ <;> simp [copyAssignSteps, moveAssignSteps]

/-- Witness for C7 at the state `⟨0, some (0, 5)⟩`. -/
theorem self_assign_noop_witness :
    copy_assign (⟨0, some (0, 5)⟩ : Variant Nat) ⟨0, some (0, 5)⟩ true = ⟨0, some (0, 5)⟩ ∧
    move_assign (⟨0, some (0, 5)⟩ : Variant Nat) ⟨0, some (0, 5)⟩ true =
      (⟨0, some (0, 5)⟩, ⟨0, some (0, 5)⟩) ∧
    copyAssignSteps (⟨0, some (0, 5)⟩ : Variant Nat) ⟨0, some (0, 5)⟩ true = [] ∧
    moveAssignSteps (⟨0, some (0, 5)⟩ : Variant Nat) ⟨0, some (0, 5)⟩ true = [] ∧
    Step.destroyObj ∉ copyAssignSteps (⟨0, some (0, 5)⟩ : Variant Nat) ⟨0, some (0, 5)⟩ true ∧
    Step.destroyObj ∉ moveAssignSteps (⟨0, some (0, 5)⟩ : Variant Nat) ⟨0, some (0, 5)⟩ true :=
  self_assign_noop ⟨0, some (0, 5)⟩

/-- C10: after move-construction (or move-assignment) from a `Variant`
holding alternative `i`, the source keeps the moved-from object in its cell
but its discriminant is the sentinel, so no later operation on the source —
its destructor, a value assignment, a copy- or move-assignment — ever emits
a destructor step for that object. -/
theorem moved_from_source_never_destroys {α : Type} (v w : Variant α) (i : Nat) (x : α)
    (h1 : v.type_idx = (i : Int)) (h2 : v.cell = some (i, x)) :
    v.index ≠ null_type ∧
    (move_ctor v).2 = { v with type_idx := null_type } ∧
    (move_assign w v false).2 = { v with type_idx := null_type } ∧
    (∀ s : Variant α, s = { v with type_idx := null_type } →
      s.index = null_type ∧ s.cell = some (i, x) ∧
      destroySteps s = [] ∧ dtorSteps s = [] ∧
      (∀ k : Nat, ∀ z : α, assignValueSteps s k z =
        [Step.setIdx null_type, Step.constructObj k z, Step.setIdx (k : Int)]) ∧
      (∀ o : Variant α, Step.destroyObj ∉ copyAssignSteps s o false) ∧
      (∀ o : Variant α, Step.destroyObj ∉ moveAssignSteps s o false)) := by
  refine ⟨by rw [Variant.index, h1]; exact natCast_ne_null i, rfl, rfl, ?_⟩
  intro s hs
  subst hs
  have hds : destroySteps { v with type_idx := null_type } = [] := by
    simp [destroySteps]
  refine ⟨rfl, by simp [h2], hds, hds, ?_, ?_, ?_⟩
  · intro k z
    simp [assignValueSteps, hds]
  · intro o
    simp only [copyAssignSteps, if_false, Bool.false_eq_true, hds, List.nil_append]
    exact destroyObj_not_in_copy_from o
  · intro o
    simp only [moveAssignSteps, if_false, Bool.false_eq_true, hds, List.nil_append]
    exact destroyObj_not_in_move_from o

/-- Witness for C10: the source `⟨0, some (0, 5)⟩` after being moved from
(with `⟨1, some (1, 3)⟩` as move-assignment target). -/
theorem moved_from_source_never_destroys_witness :
    (⟨0, some (0, 5)⟩ : Variant Nat).index ≠ null_type ∧
    (move_ctor (⟨0, some (0, 5)⟩ : Variant Nat)).2 = ⟨null_type, some (0, 5)⟩ ∧
    (move_assign (⟨1, some (1, 3)⟩ : Variant Nat) ⟨0, some (0, 5)⟩ false).2 =
      ⟨null_type, some (0, 5)⟩ ∧
    (∀ s : Variant Nat, s = ⟨null_type, some (0, 5)⟩ →
      s.index = null_type ∧ s.cell = some (0, 5) ∧
      destroySteps s = [] ∧ dtorSteps s = [] ∧
      (∀ k : Nat, ∀ z : Nat, assignValueSteps s k z =
        [Step.setIdx null_type, Step.constructObj k z, Step.setIdx (k : Int)]) ∧
      (∀ o : Variant Nat, Step.destroyObj ∉ copyAssignSteps s o false) ∧
      (∀ o : Variant Nat, Step.destroyObj ∉ moveAssignSteps s o false)) :=
  moved_from_source_never_destroys ⟨0, some (0, 5)⟩ ⟨1, some (1, 3)⟩ 0 5 rfl rfl

/-- Reading the storage at index `i` yields `some x` exactly when an object
of alternative `i` with value `x` is the one constructed in the cell. -/
theorem get_eq_some_iff {α : Type} {v : Variant α} {i : Nat} {x : α} :
    v.get i = some x ↔ v.cell = some (i, x) := by
  unfold Variant.get
  cases hc : v.cell with
  | none => simp
  | some p =>
    obtain ⟨j, y⟩ := p
    by_cases hj : j = i
    · subst hj
      simp [eq_comm, And.comm]
    · simp [hj, Ne.symm hj]

/-- `operator==(const T&)` returns `false` whenever `holds_alternative<T>()`
does (the early-return of the source). -/
theorem veq_value_eq_false_of_not_holds {τ α : Type} [DecidableEq τ]
    {ts : List τ} {beq : Nat → α → α → Bool} {v : Variant α} {t : τ} {x : α}
    (h : holds_alternative_ty ts v t = false) : veq_value ts beq v t x = false := by
  unfold veq_value
  rw [h, if_pos rfl]

/-- C6: for well-formed operands (all alternatives equality-comparable, as
the source's `static_assert` requires), `operator==` is true exactly when
both are empty, or both hold the same alternative and that alternative's
equality accepts the two held values; and two `Variant`s holding distinct
alternatives are never equal, whatever their cells contain. -/
theorem veq_correct {α : Type} (beq : Nat → α → α → Bool) (a b : Variant α)
    (ha : WF a) (hb : WF b) :
    (veq beq a b = true ↔
      (a.type_idx = null_type ∧ b.type_idx = null_type) ∨
      (∃ i : Nat, ∃ x y : α, a.type_idx = (i : Int) ∧ b.type_idx = (i : Int) ∧
        a.cell = some (i, x) ∧ b.cell = some (i, y) ∧ beq i x y = true)) ∧
    (∀ i j : Nat, a.type_idx = (i : Int) → b.type_idx = (j : Int) → i ≠ j →
      veq beq a b = false) := by
  constructor
  · rcases ha with ha | ⟨i, x, hai, hac⟩
    · rcases hb with hb | ⟨j, y, hbi, hbc⟩
      · have hv : veq beq a b = true := by
          unfold veq
          rw [ha, hb, if_neg (fun h => h rfl), if_pos rfl]
        rw [hv, ha, hb]
        simp
      · have hv : veq beq a b = false := by
          unfold veq
          rw [ha, hbi, if_pos (null_ne_natCast j)]
        rw [hv]
        constructor
        · intro h
          exact absurd h Bool.false_ne_true
        · rintro (⟨_, hB⟩ | ⟨k, x', y', hA, _⟩)
          · exact absurd (hbi.symm.trans hB) (natCast_ne_null j)
          · exact absurd (ha.symm.trans hA) (null_ne_natCast k)
    · rcases hb with hb | ⟨j, y, hbi, hbc⟩
      · have hv : veq beq a b = false := by
          unfold veq
          rw [hai, hb, if_pos (natCast_ne_null i)]
        rw [hv]
        constructor
        · intro h
          exact absurd h Bool.false_ne_true
        · rintro (⟨hA, _⟩ | ⟨k, x', y', _, hB, _⟩)
          · exact absurd (hai.symm.trans hA) (natCast_ne_null i)
          · exact absurd (hb.symm.trans hB) (null_ne_natCast k)
      · by_cases hij : i = j
        · subst hij
          have hga : a.get ((i : Int)).toNat = some x := get_eq_some_iff.mpr hac
          have hgb : b.get ((i : Int)).toNat = some y := get_eq_some_iff.mpr hbc
          have hv : veq beq a b = beq i x y := by
            unfold veq
            rw [hai, hbi, if_neg (fun h => h rfl), if_neg (natCast_ne_null i), hga, hgb]
            rfl
          rw [hv]
          constructor
          · intro h
            exact Or.inr ⟨i, x, y, hai, hbi, hac, hbc, h⟩
          · rintro (⟨hA, _⟩ | ⟨k, x', y', hA, hB, hC, hD, hE⟩)
            · exact absurd (hai.symm.trans hA) (natCast_ne_null i)
            · have hik : i = k := by
                have h1 := hai.symm.trans hA
                omega
              subst hik
              rw [hac] at hC
              rw [hbc] at hD
              simp only [Option.some.injEq, Prod.mk.injEq, true_and] at hC hD
              rw [hC, hD]
              exact hE
        · have hij' : ((i : Int)) ≠ ((j : Int)) := fun h => hij (by omega)
          have hv : veq beq a b = false := by
            unfold veq
            rw [hai, hbi, if_pos hij']
          rw [hv]
          constructor
          · intro h
            exact absurd h Bool.false_ne_true
          · rintro (⟨hA, _⟩ | ⟨k, x', y', hA, hB, _⟩)
            · exact absurd (hai.symm.trans hA) (natCast_ne_null i)
            · have h1 := hai.symm.trans hA
              have h2 := hbi.symm.trans hB
              omega
  · intro i j hi hj hij
    have hij' : ((i : Int)) ≠ ((j : Int)) := fun h => hij (by omega)
    unfold veq
    rw [hi, hj, if_pos hij']

/-- Witness for C6: both operands `⟨0, some (0, 5)⟩`, equality on `Nat`. -/
theorem veq_correct_witness :
    (veq (fun _ x y => x == y) (⟨0, some (0, 5)⟩ : Variant Nat) ⟨0, some (0, 5)⟩ = true ↔
      ((⟨0, some (0, 5)⟩ : Variant Nat).type_idx = null_type ∧
        (⟨0, some (0, 5)⟩ : Variant Nat).type_idx = null_type) ∨
      (∃ i : Nat, ∃ x y : Nat,
        (⟨0, some (0, 5)⟩ : Variant Nat).type_idx = (i : Int) ∧
        (⟨0, some (0, 5)⟩ : Variant Nat).type_idx = (i : Int) ∧
        (⟨0, some (0, 5)⟩ : Variant Nat).cell = some (i, x) ∧
        (⟨0, some (0, 5)⟩ : Variant Nat).cell = some (i, y) ∧
        (fun (_ : Nat) (x y : Nat) => x == y) i x y = true)) ∧
    (∀ i j : Nat, (⟨0, some (0, 5)⟩ : Variant Nat).type_idx = (i : Int) →
      (⟨0, some (0, 5)⟩ : Variant Nat).type_idx = (j : Int) → i ≠ j →
      veq (fun _ x y => x == y) (⟨0, some (0, 5)⟩ : Variant Nat) ⟨0, some (0, 5)⟩ = false) :=
  veq_correct (fun _ x y => x == y) ⟨0, some (0, 5)⟩ ⟨0, some (0, 5)⟩
    (Or.inr ⟨0, 5, rfl, rfl⟩) (Or.inr ⟨0, 5, rfl, rfl⟩)

/-- C8: comparing a `Variant` against a bare value `x` of alternative type
`t` is true exactly when the `Variant` currently holds that alternative and
the held value compares equal to `x`; an empty `Variant` (and one holding a
different alternative, covered by the iff) compares `false`. -/
theorem veq_value_correct {τ α : Type} [DecidableEq τ] (ts : List τ)
    (beq : Nat → α → α → Bool) (v : Variant α) (t : τ) (x : α) :
    (veq_value ts beq v t x = true ↔
      ∃ i : Nat, ∃ y : α, find_idx_by_type t ts = (i : Int) ∧ v.type_idx = (i : Int) ∧
        v.cell = some (i, y) ∧ beq i y x = true) ∧
    (v.type_idx = null_type → veq_value ts beq v t x = false) := by
  constructor
  · by_cases hf : find_idx_by_type t ts = null_type
    · have hv : veq_value ts beq v t x = false :=
        veq_value_eq_false_of_not_holds (by unfold holds_alternative_ty; rw [if_pos hf])
      rw [hv]
      constructor
      · intro h
        exact absurd h Bool.false_ne_true
      · rintro ⟨i, y, hi1, _⟩
        exact absurd (hf.symm.trans hi1) (null_ne_natCast i)
    · have h0 := find_idx_nonneg t ts hf
      have hk : find_idx_by_type t ts = ((find_idx_by_type t ts).toNat : Int) :=
        (Int.toNat_of_nonneg h0).symm
      by_cases hv : v.type_idx = find_idx_by_type t ts
      · have holds_eq : holds_alternative_ty ts v t = true := by
          unfold holds_alternative_ty
          rw [if_neg hf]
          exact decide_eq_true hv
        have hveq : veq_value ts beq v t x =
            (match v.get (find_idx_by_type t ts).toNat with
             | some y => beq (find_idx_by_type t ts).toNat y x
             | none => false) := by
          unfold veq_value
          rw [holds_eq, if_neg (by simp)]
        cases hg : v.get (find_idx_by_type t ts).toNat with
        | none =>
          rw [hveq, hg]
          constructor
          · intro h
            exact absurd h Bool.false_ne_true
          · rintro ⟨i, y, hi1, _, hi3, _⟩
            have hti : (find_idx_by_type t ts).toNat = i := by omega
            rw [hti, get_eq_some_iff.mpr hi3] at hg
            exact absurd hg (by simp)
        | some z =>
          rw [hveq, hg]
          constructor
          · intro hbeq
            exact ⟨(find_idx_by_type t ts).toNat, z, hk, hv.trans hk,
              get_eq_some_iff.mp hg, hbeq⟩
          · rintro ⟨i, y, hi1, _, hi3, hi4⟩
            have hti : (find_idx_by_type t ts).toNat = i := by omega
            rw [hti] at hg
            have hgy : v.get i = some y := get_eq_some_iff.mpr hi3
            have hzy : z = y := Option.some_inj.mp (hg.symm.trans hgy)
            rw [hti, hzy]
            exact hi4
      · have hv' : veq_value ts beq v t x = false :=
          veq_value_eq_false_of_not_holds (by
            unfold holds_alternative_ty
            rw [if_neg hf]
            exact decide_eq_false hv)
        rw [hv']
        constructor
        · intro h
          exact absurd h Bool.false_ne_true
        · rintro ⟨i, y, hi1, hi2, _⟩
          exact absurd (hi2.trans hi1.symm) hv
  · intro hnull
    apply veq_value_eq_false_of_not_holds
    unfold holds_alternative_ty
    by_cases hf : find_idx_by_type t ts = null_type
    · rw [if_pos hf]
    · rw [if_neg hf]
      exact decide_eq_false (fun h' => hf (hnull.symm.trans h').symm)

/-- Witness for C8: `⟨1, some (1, 9)⟩` against value `9` of type `20` in
the list `[10, 20]`. -/
theorem veq_value_correct_witness :
    (veq_value [10, 20] (fun _ x y => x == y) (⟨1, some (1, 9)⟩ : Variant Nat) 20 9 = true ↔
      ∃ i : Nat, ∃ y : Nat, find_idx_by_type 20 [10, 20] = (i : Int) ∧
        (⟨1, some (1, 9)⟩ : Variant Nat).type_idx = (i : Int) ∧
        (⟨1, some (1, 9)⟩ : Variant Nat).cell = some (i, y) ∧
        (fun (_ : Nat) (x y : Nat) => x == y) i y 9 = true) ∧
    ((⟨1, some (1, 9)⟩ : Variant Nat).type_idx = null_type →
      veq_value [10, 20] (fun _ x y => x == y) (⟨1, some (1, 9)⟩ : Variant Nat) 20 9 = false) :=
  veq_value_correct [10, 20] (fun _ x y => x == y) ⟨1, some (1, 9)⟩ 20 9

/-- C1 counterexample: the claim that the discriminant is reset to the
sentinel strictly before the live value's destructor runs — so that no
intermediate state has the discriminant claiming a dead value — is false on
the code.  During `operator=(T&&)` on a `Variant<...>` holding alternative 0
with value 5, the body runs `destroy()` first and only then writes
`type_idx = null_type`: the exhibited state trace contains the state
`⟨0, none⟩`, whose discriminant claims alternative 0 while no object is
live, violating `discOK`. -/
theorem assign_teardown_window_cex :
    stateTrace (⟨0, some (0, 5)⟩ : Variant Nat)
        (assignValueSteps (⟨0, some (0, 5)⟩ : Variant Nat) 0 7) =
      [⟨0, some (0, 5)⟩, ⟨0, none⟩, ⟨null_type, none⟩,
        ⟨null_type, some (0, 7)⟩, ⟨0, some (0, 7)⟩] ∧
    discOK (⟨0, (none : Option (Nat × Nat))⟩ : Variant Nat) = false ∧
    ¬ (∀ s ∈ stateTrace (⟨0, some (0, 5)⟩ : Variant Nat)
          (assignValueSteps (⟨0, some (0, 5)⟩ : Variant Nat) 0 7),
        discOK s = true) := by
  refine ⟨by decide, by decide, by decide⟩

/-- C1 (amended): the construction half of the invariant holds — in every
constructor (value, copy, move) the discriminant is written only after the
corresponding value is fully constructed, so every intermediate state
satisfies `discOK` — but during teardown the order is the reverse of the
claim: the destructor step comes strictly first, the discriminant is reset
to the sentinel only afterwards (value assignment) or not at all (the
destructor), so immediately after the destructor step the discriminant
still claims the now-destroyed alternative. -/
theorem discriminant_ordering {α : Type} (other v : Variant α) (i j : Nat) (x : α)
    (hwf : WF other) (hlive : v.type_idx = (j : Int)) :
    (∀ s ∈ stateTrace (emptyVariant (α := α))
        [Step.constructObj i x, Step.setIdx (i : Int)], discOK s = true) ∧
    (∀ s ∈ stateTrace (emptyVariant (α := α)) (constructFromCopySteps other),
        discOK s = true) ∧
    (∀ s ∈ stateTrace (emptyVariant (α := α)) (constructFromMoveSteps other),
        discOK s = true) ∧
    assignValueSteps v i x =
      [Step.destroyObj, Step.setIdx null_type, Step.constructObj i x,
        Step.setIdx (i : Int)] ∧
    dtorSteps v = [Step.destroyObj] ∧
    discOK (execSteps v [Step.destroyObj]) = false := by
  have hds : destroySteps v = [Step.destroyObj] := by
    simp [destroySteps, hlive, natCast_ne_null]
  refine ⟨?_, ?_, ?_, by simp [assignValueSteps, hds], hds, ?_⟩
  · intro s hs
    simp only [stateTrace, List.scanl, applyStep, emptyVariant, List.mem_cons,
      List.mem_singleton, List.not_mem_nil, or_false] at hs
    rcases hs with rfl | rfl | rfl <;> simp [discOK]
  · rcases hwf with h | ⟨k, y, hk, hc⟩
    · intro s hs
      simp only [stateTrace, constructFromCopySteps, h, if_pos rfl, List.scanl,
        applyStep, emptyVariant, List.mem_cons, List.not_mem_nil, or_false] at hs
      rcases hs with rfl | rfl <;> simp [discOK]
    · have hget : other.get k = some y := get_eq_some_iff.mpr hc
      have hsteps : constructFromCopySteps other =
          [Step.setIdx null_type, Step.constructObj k y, Step.setIdx ((k : Int))] := by
        unfold constructFromCopySteps
        rw [hk, if_neg (natCast_ne_null k), Int.toNat_natCast, hget]
      intro s hs
      rw [hsteps] at hs
      simp only [stateTrace, List.scanl, applyStep, emptyVariant, List.mem_cons,
        List.not_mem_nil, or_false] at hs
      rcases hs with rfl | rfl | rfl | rfl <;> simp [discOK]
  · rcases hwf with h | ⟨k, y, hk, hc⟩
    · intro s hs
      simp only [stateTrace, constructFromMoveSteps, h, if_pos rfl, List.scanl,
        applyStep, emptyVariant, List.mem_cons, List.not_mem_nil, or_false] at hs
      rcases hs with rfl | rfl <;> simp [discOK]
    · have hget : other.get k = some y := get_eq_some_iff.mpr hc
      have hsteps : constructFromMoveSteps other =
          [Step.setIdx null_type, Step.constructObj k y, Step.setIdx ((k : Int))] := by
        unfold constructFromMoveSteps
        rw [hk, if_neg (natCast_ne_null k), Int.toNat_natCast, hget]
      intro s hs
      rw [hsteps] at hs
      simp only [stateTrace, List.scanl, applyStep, emptyVariant, List.mem_cons,
        List.not_mem_nil, or_false] at hs
      rcases hs with rfl | rfl | rfl | rfl <;> simp [discOK]
  · simp [execSteps, applyStep, discOK, hlive, natCast_ne_null]

/-- Witness for the amended C1, at a live copy/move source `⟨0, some (0, 3)⟩`
and assignment target `⟨0, some (0, 5)⟩`. -/
theorem discriminant_ordering_witness :
    (∀ s ∈ stateTrace (emptyVariant (α := Nat))
        [Step.constructObj 1 7, Step.setIdx (1 : Int)], discOK s = true) ∧
    (∀ s ∈ stateTrace (emptyVariant (α := Nat))
        (constructFromCopySteps ⟨0, some (0, 3)⟩), discOK s = true) ∧
    (∀ s ∈ stateTrace (emptyVariant (α := Nat))
        (constructFromMoveSteps ⟨0, some (0, 3)⟩), discOK s = true) ∧
    assignValueSteps (⟨0, some (0, 5)⟩ : Variant Nat) 1 7 =
      [Step.destroyObj, Step.setIdx null_type, Step.constructObj 1 7,
        Step.setIdx (1 : Int)] ∧
    dtorSteps (⟨0, some (0, 5)⟩ : Variant Nat) = [Step.destroyObj] ∧
    discOK (execSteps (⟨0, some (0, 5)⟩ : Variant Nat) [Step.destroyObj]) = false :=
  discriminant_ordering ⟨0, some (0, 3)⟩ ⟨0, some (0, 5)⟩ 1 0 7
    (Or.inr ⟨0, 3, rfl, rfl⟩) rfl

end VariantSpec
